import Mathlib

/-!
Verification development for the `mdgeom` package (modules
`mdgeom/distances.py` and `mdgeom/info.py`).

Positions and box parameters are embedded as exact rationals (the float
values of any concrete run are rationals); Euclidean norms live in `ℝ`.
Python functions that can raise are embedded as `Except PyErr`-valued
functions, with the exception payloads preserving the source's messages.
-/

namespace MDGeom

/-- A 3D position or displacement vector (numpy shape `(3,)`). -/
structure Vec3 where
  x : ℚ
  y : ℚ
  z : ℚ
deriving DecidableEq, Repr

def vadd (u v : Vec3) : Vec3 := ⟨u.x + v.x, u.y + v.y, u.z + v.z⟩

def vsub (u v : Vec3) : Vec3 := ⟨u.x - v.x, u.y - v.y, u.z - v.z⟩

def vscale (n : Int) (v : Vec3) : Vec3 := ⟨n * v.x, n * v.y, n * v.z⟩

/-- Squared Euclidean norm, exact in `ℚ`. -/
def normSq (v : Vec3) : ℚ := v.x * v.x + v.y * v.y + v.z * v.z

/-- Euclidean norm `|v|`, in `ℝ`. -/
noncomputable def vnorm (v : Vec3) : ℝ := Real.sqrt ((normSq v : ℚ) : ℝ)

/-- The unit-cell descriptor `[Lx, Ly, Lz, alpha, beta, gamma]`
(`u.dimensions` in MDAnalysis). -/
structure Box where
  Lx : ℚ
  Ly : ℚ
  Lz : ℚ
  alpha : ℚ
  beta : ℚ
  gamma : ℚ
deriving DecidableEq, Repr

def boxList (b : Box) : List ℚ := [b.Lx, b.Ly, b.Lz, b.alpha, b.beta, b.gamma]

/-- Absolute value on `ℚ` (numpy's `fabs`), written so that it evaluates by
kernel reduction. -/
def rabs (q : ℚ) : ℚ := if q < 0 then -q else q

/-- Numpy `np.allclose(a, b)` over the six box scalars, with numpy's default
tolerances `rtol = 1e-5`, `atol = 1e-8`: elementwise
`|a - b| <= atol + rtol * |b|`. -/
def allclose (a b : Box) : Bool :=
  ((boxList a).zip (boxList b)).all fun p =>
    decide (rabs (p.1 - p.2) ≤ 1 / 100000000 + (1 / 100000) * rabs p.2)

/-- An `AtomGroup`: an ordered list of positions together with the unit-cell
dimensions of its universe (`None` when there is no box). -/
structure AtomGroup where
  positions : List Vec3
  dimensions : Option Box
deriving DecidableEq, Repr

/-- The `a.n_atoms` attribute of an AtomGroup. -/
def n_atoms (a : AtomGroup) : Nat := a.positions.length

/-- Python exceptions raised by the package. -/
inductive PyErr where
  | typeError
  | valueError (msg : String)
deriving DecidableEq, Repr

/-- Message of the size-mismatch `ValueError` in `_check_groups`. -/
def sizeMsg : String := "AtomGroups a and b contain different number of atoms"

/-- Message of the box-presence-mismatch `ValueError` in `_check_groups`. -/
def presenceMsg : String := "One AtomGroup does not have unit cell information"

/-- Message of the box-values-differ `ValueError` in `_check_groups`. -/
def differMsg : String := "Unit cell dimensions differ between groups."

/-- Embedding of `mdgeom.distances._check_groups(a, b)`: raises `ValueError` if the groups
contain different numbers of atoms or have different unit-cell dimensions. -/
def _check_groups (a b : AtomGroup) : Except PyErr Unit :=
  if n_atoms a ≠ n_atoms b then
    Except.error (PyErr.valueError sizeMsg)
  else if a.dimensions.isNone ∧ b.dimensions.isNone then
    Except.ok ()
  else if a.dimensions.isNone ≠ b.dimensions.isNone then
    Except.error (PyErr.valueError presenceMsg)
  else
    match a.dimensions, b.dimensions with
    | some da, some db =>
        if allclose da db then Except.ok ()
        else Except.error (PyErr.valueError differMsg)
    | _, _ => Except.ok ()

/-- Three lattice vectors of the periodic unit cell. -/
def Lattice : Type := Vec3 × Vec3 × Vec3

/-- The 27 lattice translations `i·v1 + j·v2 + k·v3`, `i, j, k ∈ {-1, 0, 1}`
(the 3×3×3 neighborhood of periodic images). -/
def latticeShifts (L : Lattice) : List Vec3 :=
  ([-1, 0, 1] : List Int).flatMap fun i =>
    ([-1, 0, 1] : List Int).flatMap fun j =>
      ([-1, 0, 1] : List Int).map fun k =>
        vadd (vadd (vscale i L.1) (vscale j L.2.1)) (vscale k L.2.2)

/-- Modelled from the spec: the minimum-image reduction applied by the
external library (`MDAnalysis.lib.distances`, not part of this repository)
to one displacement vector — among the translations of `v` by the 3×3×3
neighborhood of periodic images of the cell, select one of smallest
Euclidean norm (equivalently, smallest squared norm). -/
def min_image (L : Lattice) (v : Vec3) : Vec3 :=
  ((latticeShifts L).map (vadd v)).foldl
    (fun best c => if normSq c < normSq best then c else best) v

/-- Modelled from the spec: `MDAnalysis.lib.distances.minimize_vectors(vs,
box)` — apply the minimum-image reduction to each vector. The conversion
from the six box scalars to the three lattice vectors (the library's
`triclinic_vectors`, trigonometric and external to this repository) is kept
as the explicit parameter `conv`. -/
def minimize_vectors (conv : Box → Lattice) (vs : List Vec3) (box : Box) :
    List Vec3 :=
  vs.map (min_image (conv box))

/-- Elementwise `a.positions - b.positions` (numpy broadcasting over two
`(N, 3)` arrays; length is truncated to the shorter list, which never
happens after `_check_groups`). -/
def diff_vectors (a b : List Vec3) : List Vec3 :=
  (a.zip b).map fun p => vsub p.1 p.2

/-- Modelled from the spec: `MDAnalysis.lib.distances.calc_bonds(a, b, box)`
— the distance between corresponding atoms, i.e. the Euclidean norm of the
minimum-image difference vector; with `box is None` the plain Euclidean
distance. -/
noncomputable def calc_bonds (conv : Box → Lattice) (a b : List Vec3)
    (box : Option Box) : List ℝ :=
  (a.zip b).map fun p =>
    match box with
    | none => vnorm (vsub p.1 p.2)
    | some bx => vnorm (min_image (conv bx) (vsub p.1 p.2))

/-- Embedding of `mdgeom.distances.minimage_distance(a, b)`: check the groups, then
`calc_bonds(a, b, box=a.dimensions)`. -/
noncomputable def minimage_distance (conv : Box → Lattice) (a b : AtomGroup) :
    Except PyErr (List ℝ) := do
  _check_groups a b
  pure (calc_bonds conv a.positions b.positions a.dimensions)

/-- Embedding of `mdgeom.distances.minimage_difference_vector(a, b)`: check the groups,
form `a.positions - b.positions`, and minimize the vectors when
`a.dimensions` is not `None`. -/
def minimage_difference_vector (conv : Box → Lattice) (a b : AtomGroup) :
    Except PyErr (List Vec3) := do
  _check_groups a b
  let diff_vec := diff_vectors a.positions b.positions
  match a.dimensions with
  | some bx => pure (minimize_vectors conv diff_vec bx)
  | none => pure diff_vec

/-- Trajectory data of a universe, as read by `mdgeom.info`. -/
structure Trajectory where
  n_frames : Nat
  totaltime : ℚ
  dt : ℚ
deriving DecidableEq, Repr

/-- An MDAnalysis `Universe` as consumed by `mdgeom.info`: atom count,
unit-cell dimensions of the first frame (`None` when there is no regular
box), and trajectory metadata. -/
structure Universe where
  atoms_n_atoms : Nat
  dimensions : Option Box
  trajectory : Trajectory
deriving DecidableEq, Repr

/-- A Python `dict` with string keys and scalar values, in insertion
order. -/
abbrev Dict : Type := List (String × ℚ)

/-- Reading `data[key]` on a dict whose keys are known to be present (`0` is never
observed on the dicts built by `extract`). -/
def lookupD (d : Dict) (k : String) : ℚ :=
  ((List.lookup k d).getD 0)

/-- The statement `data[key] /= c`: divide the value stored at `key` in place, keeping
insertion order. -/
def dictDiv (d : Dict) (k : String) (c : ℚ) : Dict :=
  d.map fun kv => if kv.1 = k then (kv.1, kv.2 / c) else kv

/-- Embedding of `mdgeom.info.extract(u)`: the metadata dictionary with its ten keys in
insertion order; unpacking `u.dimensions` raises `TypeError` when it is
`None`, which the source catches and turns into six zero box fields. -/
def extract (u : Universe) : Dict :=
  let bx6 : ℚ × ℚ × ℚ × ℚ × ℚ × ℚ :=
    match u.dimensions with
    | some b => (b.Lx, b.Ly, b.Lz, b.alpha, b.beta, b.gamma)
    | none => (0, 0, 0, 0, 0, 0)
  [("n_atoms", (u.atoms_n_atoms : ℚ)),
   ("Lx", bx6.1),
   ("Ly", bx6.2.1),
   ("Lz", bx6.2.2.1),
   ("alpha", bx6.2.2.2.1),
   ("beta", bx6.2.2.2.2.1),
   ("gamma", bx6.2.2.2.2.2.1),
   ("n_frames", (u.trajectory.n_frames : ℚ)),
   ("totaltime", u.trajectory.totaltime),
   ("dt", u.trajectory.dt)]

/-- The `data_column_keys` list of `mdgeom.info.summary`. -/
def data_column_keys : List String :=
  ["n_atoms", "Lx", "Ly", "Lz", "alpha", "beta", "gamma", "n_frames",
   "totaltime", "dt"]

/-- The `data_column_names` list of `mdgeom.info.summary`. -/
def data_column_names : List String :=
  ["n_atoms", "Lx/Å", "Ly/Å", "Lz/Å", "alpha", "beta", "gamma", "n_frames",
   "totaltime/ns", "dt/ps"]

/-- One cell of a PrettyTable row: a label string or a number. -/
inductive Cell where
  | str (s : String)
  | num (q : ℚ)
deriving DecidableEq, Repr

/-- The PrettyTable that `summary` prints to standard output: its
`field_names` and its rows. -/
structure Table where
  field_names : List String
  rows : List (List Cell)
deriving DecidableEq, Repr

/-- Message of the label/universe count mismatch `ValueError` in
`summary`. -/
def labelsMsg : String := "labels must contain one label per universe"

/-- The loop body of `summary` for one universe and its label: extract the
metadata, divide the `totaltime` entry by 1000 in place, list the values in
`data_column_keys` order, and prepend the label when it is not `None`. -/
def summaryRow (u : Universe) (label : Option String) : List Cell :=
  let data := dictDiv (extract u) "totaltime" 1000
  let row := data_column_keys.map fun k => Cell.num (lookupD data k)
  match label with
  | some l => Cell.str l :: row
  | none => row

/-- Message of the `ValueError` raised by prettytable's `add_row` when a
row's length differs from the number of field names. -/
def rowMsg : String := "Row has incorrect number of values"

/-- The `summary` loop over universes and labels: build each row via
`summaryRow` and add it to the table; prettytable's `table.add_row`
validates each row against the field names and raises `ValueError` when the
lengths differ. -/
def add_rows (column_names : List String) :
    List (Universe × Option String) → Except PyErr (List (List Cell))
  | [] => Except.ok []
  | p :: rest =>
    let row := summaryRow p.1 p.2
    if row.length ≠ column_names.length then
      Except.error (PyErr.valueError rowMsg)
    else do
      let rows ← add_rows column_names rest
      Except.ok (row :: rows)

/-- Embedding of `mdgeom.info.summary(*universes, labels=labels)`: the table written to
standard output, or the exception raised. `len(labels)` raises `TypeError`
when `labels` is `None` (the default), before the `labels is None` check
further down; each `table.add_row` call validates the row length against
the field names. -/
def summary (universes : List Universe)
    (labels : Option (List (Option String))) : Except PyErr Table := do
  let lablen ← match labels with
    | none => Except.error PyErr.typeError
    | some ls => Except.ok ls.length
  if lablen ≠ universes.length then
    Except.error (PyErr.valueError labelsMsg)
  else
    let (labelList, column_names) :=
      match labels with
      | none => (List.replicate universes.length (none : Option String),
                 data_column_names)
      | some ls => (ls, "simulation" :: data_column_names)
    let rows ← add_rows column_names (universes.zip labelList)
    Except.ok { field_names := column_names, rows := rows }

/-- The row contents as the spec words them: the label when one is given,
then atom count, the three edge lengths, the three angles, the frame count,
the total time divided by 1000 (ps converted to ns), and the frame
spacing, in that fixed order. -/
def specRow (u : Universe) (label : Option String) : List Cell :=
  let bx6 : ℚ × ℚ × ℚ × ℚ × ℚ × ℚ :=
    match u.dimensions with
    | some b => (b.Lx, b.Ly, b.Lz, b.alpha, b.beta, b.gamma)
    | none => (0, 0, 0, 0, 0, 0)
  (match label with
   | some l => [Cell.str l]
   | none => []) ++
  [Cell.num (u.atoms_n_atoms : ℚ),
   Cell.num bx6.1, Cell.num bx6.2.1, Cell.num bx6.2.2.1,
   Cell.num bx6.2.2.2.1, Cell.num bx6.2.2.2.2.1, Cell.num bx6.2.2.2.2.2.1,
   Cell.num (u.trajectory.n_frames : ℚ),
   Cell.num (u.trajectory.totaltime / 1000),
   Cell.num u.trajectory.dt]

/-- A heap making Python's object identity explicit: the universes passed to
`summary` and the dictionaries allocated during the call, addressed by
index. -/
structure Heap where
  universes : List Universe
  dicts : List Dict
deriving DecidableEq, Repr

/-- Placeholder universe for out-of-range reads. -/
def defaultUniverse : Universe := ⟨0, none, ⟨0, 0, 0⟩⟩

/-- The universe stored at address `r`. -/
def heapU (h : Heap) (r : Nat) : Universe := h.universes.getD r defaultUniverse

/-- Running `extract(u)` on the heap: read the universe at `r` and allocate its
fresh metadata dictionary, returning the new dict's address. -/
def extractS (h : Heap) (r : Nat) : Heap × Nat :=
  ({ h with dicts := h.dicts ++ [extract (heapU h r)] }, h.dicts.length)

/-- Running `data["totaltime"] /= 1000` on the heap: overwrite the dict at address
`d` in place. -/
def divTotalS (h : Heap) (d : Nat) : Heap :=
  { h with dicts := h.dicts.set d (dictDiv (h.dicts.getD d []) "totaltime" 1000) }

/-- The loop body of `summary` on the heap: extract into a fresh dict,
divide its `totaltime` entry in place, and build the row from it. -/
def summaryRowS (h : Heap) (r : Nat) (label : Option String) :
    Heap × List Cell :=
  let hd := extractS h r
  let h2 := divTotalS hd.1 hd.2
  let data := h2.dicts.getD hd.2 []
  let row := data_column_keys.map fun k => Cell.num (lookupD data k)
  (h2, match label with
       | some l => Cell.str l :: row
       | none => row)

/-- The heap-level `summary` loop: thread the heap through each
`summaryRowS` step, with prettytable's `add_row` length validation raising
`ValueError` on a row whose length differs from the field names. -/
def add_rowsS (column_names : List String) :
    Heap → List (Nat × Option String) → Except PyErr (Heap × List (List Cell))
  | h, [] => Except.ok (h, [])
  | h, p :: rest =>
    let q := summaryRowS h p.1 p.2
    if q.2.length ≠ column_names.length then
      Except.error (PyErr.valueError rowMsg)
    else do
      let out ← add_rowsS column_names q.1 rest
      Except.ok (out.1, q.2 :: out.2)

/-- Running `summary` on the heap: the universes are passed by reference
(addresses `refs`), and the dictionaries created by `extract` live on the
heap, so that the in-place `totaltime` division is an explicit heap
write. -/
def summaryS (h : Heap) (refs : List Nat)
    (labels : Option (List (Option String))) : Except PyErr (Heap × Table) := do
  let lablen ← match labels with
    | none => Except.error PyErr.typeError
    | some ls => Except.ok ls.length
  if lablen ≠ refs.length then
    Except.error (PyErr.valueError labelsMsg)
  else
    let (labelList, column_names) :=
      match labels with
      | none => (List.replicate refs.length (none : Option String),
                 data_column_names)
      | some ls => (ls, "simulation" :: data_column_names)
    let out ← add_rowsS column_names h (refs.zip labelList)
    Except.ok (out.1, { field_names := column_names, rows := out.2 })

/-! ### Concrete inputs used by the witnesses -/

/-- Concrete box→lattice conversion for witnesses: the orthorhombic
reading of the box. -/
def convW : Box → Lattice :=
  fun b => (⟨b.Lx, 0, 0⟩, ⟨0, b.Ly, 0⟩, ⟨0, 0, b.Lz⟩)

def boxW : Box := ⟨80, 80, 80, 60, 60, 90⟩

def agW1 : AtomGroup := ⟨[⟨1, 2, 3⟩], some boxW⟩

def agW2 : AtomGroup := ⟨[⟨79, 5, 6⟩], some boxW⟩

/-- Box differing from `boxW` by a 1e-7 relative perturbation of `Lx`:
within `np.allclose` tolerance. -/
def boxW7 : Box := ⟨80 + 1 / 125000, 80, 80, 60, 60, 90⟩

def agW3 : AtomGroup := ⟨[⟨1, 2, 3⟩], some boxW7⟩

/-- The CHARMM-like box-less universe of the test suite. -/
def uW : Universe := ⟨3341, none, ⟨98, 97, 1⟩⟩

/-- The GROMACS-like boxed universe of the test suite. -/
def uB : Universe := ⟨47681, some boxW, ⟨10, 900, 100⟩⟩

def tableW : Table := ⟨"simulation" :: data_column_names, []⟩

/-- The table produced by the accepted two-universe, two-label call used by
the C9 witness. -/
def tableC9 : Table :=
  ⟨"simulation" :: data_column_names,
   [summaryRow uW (some "A"), summaryRow uB (some "B")]⟩

def heap0 : Heap := ⟨[uW], []⟩

def heap1 : Heap := ⟨[uW], [dictDiv (extract uW) "totaltime" 1000]⟩

def table1 : Table :=
  ⟨"simulation" :: data_column_names, [summaryRow uW (some "lbl")]⟩

/-! ### Helper lemmas -/

/-- Sequencing a successful `Except` step. -/
theorem bind_ok_eq {ε α β : Type} (a : α) (f : α → Except ε β) :
    (Except.ok a >>= f) = f a := rfl

/-- Sequencing a failed `Except` step propagates the error. -/
theorem bind_error_eq {ε α β : Type} (e : ε) (f : α → Except ε β) :
    ((Except.error e : Except ε α) >>= f) = Except.error e := rfl

/-- Evaluation of `summary` on a present labels list, with the control flow
reduced. -/
theorem summary_some_eq (us : List Universe) (ls : List (Option String)) :
    summary us (some ls) =
      if ls.length ≠ us.length then Except.error (PyErr.valueError labelsMsg)
      else add_rows ("simulation" :: data_column_names) (us.zip ls) >>=
        fun rows => Except.ok
          { field_names := "simulation" :: data_column_names
            rows := rows } := rfl

/-- A labelled row always has one cell per name of the labelled column
layout: the label plus the ten data cells. -/
theorem summaryRow_some_length (u : Universe) (s : String) :
    (summaryRow u (some s)).length =
      ("simulation" :: data_column_names).length := rfl

/-- Inversion of the `summary` loop: a successful run added exactly the
`summaryRow` of each universe/label pair, in order. -/
theorem add_rows_ok (cols : List String) (l : List (Universe × Option String))
    (rows : List (List Cell)) (h : add_rows cols l = Except.ok rows) :
    rows = l.map fun p => summaryRow p.1 p.2 := by
  induction l generalizing rows with
  | nil =>
    rw [show add_rows cols [] = Except.ok [] from rfl, Except.ok.injEq] at h
    rw [← h]
    rfl
  | cons p rest ih =>
    unfold add_rows at h
    by_cases hlen : (summaryRow p.1 p.2).length = cols.length
    · rw [if_neg (not_not_intro hlen)] at h
      cases hrec : add_rows cols rest with
      | error e =>
        rw [hrec, bind_error_eq] at h
        exact absurd h (by simp)
      | ok rows2 =>
        rw [hrec, bind_ok_eq, Except.ok.injEq] at h
        rw [← h, List.map_cons, ih rows2 hrec]
    · rw [if_pos hlen] at h
      exact absurd h (by simp)

/-- The `summary` loop succeeds under the labelled column layout when every
label is present. -/
theorem add_rows_all_some (l : List (Universe × Option String))
    (hall : ∀ p ∈ l, p.2 ≠ none) :
    add_rows ("simulation" :: data_column_names) l =
      Except.ok (l.map fun p => summaryRow p.1 p.2) := by
  induction l with
  | nil => rfl
  | cons p rest ih =>
    obtain ⟨s, hs⟩ := Option.ne_none_iff_exists'.mp (hall p (by simp))
    unfold add_rows
    rw [hs, if_neg (not_not_intro (summaryRow_some_length p.1 s)),
      ih (fun q hq => hall q (by simp [hq])), bind_ok_eq, List.map_cons, hs]

/-- The computable absolute value is nonnegative. -/
theorem rabs_nonneg (q : ℚ) : 0 ≤ rabs q := by
  unfold rabs
  split <;> linarith

/-- Value of `rabs` on a nonnegative rational. -/
theorem rabs_of_nonneg {q : ℚ} (h : 0 ≤ q) : rabs q = q := by
  unfold rabs
  split <;> linarith

/-- Value of `rabs` on a nonpositive rational. -/
theorem rabs_of_nonpos {q : ℚ} (h : q ≤ 0) : rabs q = -q := by
  unfold rabs
  split <;> linarith

/-- A scalar is always within `np.allclose` tolerance of itself. -/
theorem close_self (q : ℚ) :
    rabs (q - q) ≤ 1 / 100000000 + (1 / 100000) * rabs q := by
  have h := rabs_nonneg q
  rw [sub_self]
  rw [show rabs 0 = 0 from rfl]
  linarith

/-- Numpy `np.allclose` is reflexive: a box is always close to itself. -/
theorem allclose_self (b : Box) : allclose b b = true := by
  simp only [allclose, boxList, List.zip_cons_cons, List.zip_nil_right,
    List.all_cons, List.all_nil, Bool.and_true, Bool.and_eq_true,
    decide_eq_true_eq]
  exact ⟨close_self _, close_self _, close_self _, close_self _,
    close_self _, close_self _⟩

/-- The check `_check_groups` succeeds on equal-sized groups with equal
dimensions. -/
theorem check_groups_ok (a b : AtomGroup) (hN : n_atoms a = n_atoms b)
    (hbox : a.dimensions = b.dimensions) : _check_groups a b = Except.ok () := by
  cases hd : b.dimensions with
  | none => simp [_check_groups, hN, hbox, hd]
  | some db => simp [_check_groups, hN, hbox, hd, allclose_self]

/-- Value of `minimage_distance` after a successful group check. -/
theorem minimage_distance_ok (conv : Box → Lattice) (a b : AtomGroup)
    (h : _check_groups a b = Except.ok ()) :
    minimage_distance conv a b =
      Except.ok (calc_bonds conv a.positions b.positions a.dimensions) := by
  unfold minimage_distance
  rw [h]
  rfl

/-- Value of `minimage_difference_vector` after a successful group check. -/
theorem minimage_vector_ok (conv : Box → Lattice) (a b : AtomGroup)
    (h : _check_groups a b = Except.ok ()) :
    minimage_difference_vector conv a b =
      Except.ok (match a.dimensions with
        | some bx => minimize_vectors conv (diff_vectors a.positions b.positions) bx
        | none => diff_vectors a.positions b.positions) := by
  unfold minimage_difference_vector
  rw [h]
  cases a.dimensions <;> rfl

/-! ### C1 -/

/-- C1: for every pair of AtomGroups of equal size whose boxes are
identical (or both absent), and every index `i < N`, the `i`-th scalar
returned by `minimage_distance` equals the Euclidean norm of the `i`-th
vector returned by `minimage_difference_vector`, whatever lattice the
external box conversion produces. -/
theorem minimage_distance_eq_norm_of_vector (conv : Box → Lattice)
    (a b : AtomGroup) (hN : n_atoms a = n_atoms b)
    (hbox : a.dimensions = b.dimensions) (i : Nat) (hi : i < n_atoms a) :
    ∃ ds vs, minimage_distance conv a b = Except.ok ds ∧
      minimage_difference_vector conv a b = Except.ok vs ∧
      ds.getD i 0 = vnorm (vs.getD i ⟨0, 0, 0⟩) := by
  have hchk := check_groups_ok a b hN hbox
  have hzi : i < (a.positions.zip b.positions).length := by
    simp only [n_atoms] at hN hi
    simp only [List.length_zip]
    omega
  refine ⟨_, _, minimage_distance_ok conv a b hchk,
    minimage_vector_ok conv a b hchk, ?_⟩
  cases hd : a.dimensions with
  | none =>
    simp only [hd, calc_bonds, diff_vectors]
    rw [List.getD_eq_getElem _ _ (by simpa using hzi),
      List.getD_eq_getElem _ _ (by simpa using hzi)]
    simp [List.getElem_map]
  | some bx =>
    simp only [hd, calc_bonds, minimize_vectors, diff_vectors, List.map_map]
    rw [List.getD_eq_getElem _ _ (by simpa using hzi),
      List.getD_eq_getElem _ _ (by simpa using hzi)]
    simp [List.getElem_map]

/-- Witness for C1 at a concrete one-atom pair sharing a box. -/
theorem minimage_distance_eq_norm_of_vector_witness :
    n_atoms agW1 = n_atoms agW2 ∧ agW1.dimensions = agW2.dimensions ∧
    0 < n_atoms agW1 ∧
    ∃ ds vs, minimage_distance convW agW1 agW2 = Except.ok ds ∧
      minimage_difference_vector convW agW1 agW2 = Except.ok vs ∧
      ds.getD 0 0 = vnorm (vs.getD 0 ⟨0, 0, 0⟩) :=
  ⟨rfl, rfl, by decide,
    minimage_distance_eq_norm_of_vector convW agW1 agW2 rfl rfl 0 (by decide)⟩

/-! ### C2 -/

/-- C2: when neither group has a box, `minimage_difference_vector` returns
exactly the elementwise difference `a.positions - b.positions`, with no
periodic correction. -/
theorem minimage_vector_nobox_raw (conv : Box → Lattice) (a b : AtomGroup)
    (hN : n_atoms a = n_atoms b) (ha : a.dimensions = none)
    (hb : b.dimensions = none) :
    minimage_difference_vector conv a b =
      Except.ok (diff_vectors a.positions b.positions) ∧
    ∀ i, i < n_atoms a →
      (diff_vectors a.positions b.positions).getD i ⟨0, 0, 0⟩ =
        vsub (a.positions.getD i ⟨0, 0, 0⟩) (b.positions.getD i ⟨0, 0, 0⟩) := by
  have hchk := check_groups_ok a b hN (by rw [ha, hb])
  constructor
  · rw [minimage_vector_ok conv a b hchk, ha]
  · intro i hi
    simp only [n_atoms] at hN hi
    have hzi : i < (a.positions.zip b.positions).length := by
      simp only [List.length_zip]
      omega
    simp only [diff_vectors]
    rw [List.getD_eq_getElem _ _ (by simpa using hzi),
      List.getD_eq_getElem _ _ (by omega),
      List.getD_eq_getElem _ _ (show i < b.positions.length by omega)]
    simp [List.getElem_map, List.getElem_zip]

/-- Witness for C2 at a concrete box-less pair. -/
theorem minimage_vector_nobox_raw_witness :
    minimage_difference_vector convW ⟨[⟨1, 2, 3⟩], none⟩ ⟨[⟨4, 6, 8⟩], none⟩ =
      Except.ok (diff_vectors [⟨1, 2, 3⟩] [⟨4, 6, 8⟩]) ∧
    (diff_vectors ([⟨1, 2, 3⟩] : List Vec3) [⟨4, 6, 8⟩]).getD 0 ⟨0, 0, 0⟩ =
      vsub (([⟨1, 2, 3⟩] : List Vec3).getD 0 ⟨0, 0, 0⟩)
        (([⟨4, 6, 8⟩] : List Vec3).getD 0 ⟨0, 0, 0⟩) :=
  ⟨(minimage_vector_nobox_raw convW ⟨[⟨1, 2, 3⟩], none⟩ ⟨[⟨4, 6, 8⟩], none⟩
      rfl rfl rfl).1,
   (minimage_vector_nobox_raw convW ⟨[⟨1, 2, 3⟩], none⟩ ⟨[⟨4, 6, 8⟩], none⟩
      rfl rfl rfl).2 0 (by decide)⟩

/-! ### C3 -/

/-- C3: on groups of different atom counts, both operations fail with the
size-mismatch `ValueError` and return no result. -/
theorem size_mismatch_error (conv : Box → Lattice) (a b : AtomGroup)
    (hN : n_atoms a ≠ n_atoms b) :
    minimage_distance conv a b = Except.error (PyErr.valueError sizeMsg) ∧
    minimage_difference_vector conv a b =
      Except.error (PyErr.valueError sizeMsg) := by
  have hchk : _check_groups a b = Except.error (PyErr.valueError sizeMsg) := by
    simp [_check_groups, hN]
  constructor
  · unfold minimage_distance
    rw [hchk]
    rfl
  · unfold minimage_difference_vector
    rw [hchk]
    rfl

/-- Witness for C3 on a 1-atom versus 2-atom pair. -/
theorem size_mismatch_error_witness :
    minimage_distance convW ⟨[⟨0, 0, 0⟩], none⟩ ⟨[⟨1, 1, 1⟩, ⟨2, 2, 2⟩], none⟩ =
      Except.error (PyErr.valueError sizeMsg) ∧
    minimage_difference_vector convW ⟨[⟨0, 0, 0⟩], none⟩
        ⟨[⟨1, 1, 1⟩, ⟨2, 2, 2⟩], none⟩ =
      Except.error (PyErr.valueError sizeMsg) :=
  size_mismatch_error convW ⟨[⟨0, 0, 0⟩], none⟩ ⟨[⟨1, 1, 1⟩, ⟨2, 2, 2⟩], none⟩
    (by decide)

/-! ### C4 -/

/-- C4: for equal-sized groups, a box-presence mismatch or boxes differing
beyond the combined absolute/relative tolerance make both operations raise
the configuration `ValueError`; with both boxes absent, or both present and
within tolerance, neither operation raises. -/
theorem box_compat_check (conv : Box → Lattice) (a b : AtomGroup)
    (hN : n_atoms a = n_atoms b) :
    (a.dimensions.isSome ≠ b.dimensions.isSome →
       minimage_distance conv a b = Except.error (PyErr.valueError presenceMsg) ∧
       minimage_difference_vector conv a b =
         Except.error (PyErr.valueError presenceMsg)) ∧
    (∀ da db, a.dimensions = some da → b.dimensions = some db →
       allclose da db = false →
       minimage_distance conv a b = Except.error (PyErr.valueError differMsg) ∧
       minimage_difference_vector conv a b =
         Except.error (PyErr.valueError differMsg)) ∧
    ((a.dimensions = none ∧ b.dimensions = none) ∨
      (∃ da db, a.dimensions = some da ∧ b.dimensions = some db ∧
        allclose da db = true) →
       (∃ ds, minimage_distance conv a b = Except.ok ds) ∧
       (∃ vs, minimage_difference_vector conv a b = Except.ok vs)) := by
  refine ⟨?_, ?_, ?_⟩
  · intro hpres
    have hchk : _check_groups a b = Except.error (PyErr.valueError presenceMsg) := by
      cases hda : a.dimensions <;> cases hdb : b.dimensions <;>
        simp [hda, hdb] at hpres <;> simp [_check_groups, hN, hda, hdb]
    constructor
    · unfold minimage_distance
      rw [hchk]
      rfl
    · unfold minimage_difference_vector
      rw [hchk]
      rfl
  · intro da db hda hdb hfar
    have hchk : _check_groups a b = Except.error (PyErr.valueError differMsg) := by
      simp [_check_groups, hN, hda, hdb, hfar]
    constructor
    · unfold minimage_distance
      rw [hchk]
      rfl
    · unfold minimage_difference_vector
      rw [hchk]
      rfl
  · intro hcompat
    have hchk : _check_groups a b = Except.ok () := by
      rcases hcompat with ⟨hda, hdb⟩ | ⟨da, db, hda, hdb, hclose⟩
      · simp [_check_groups, hN, hda, hdb]
      · simp [_check_groups, hN, hda, hdb, hclose]
    exact ⟨⟨_, minimage_distance_ok conv a b hchk⟩,
      ⟨_, minimage_vector_ok conv a b hchk⟩⟩

/-- Witness for C4: a presence mismatch raises, and boxes differing by only
1e-7 relative noise do not raise. -/
theorem box_compat_check_witness :
    (minimage_distance convW agW1 ⟨[⟨0, 0, 0⟩], none⟩ =
       Except.error (PyErr.valueError presenceMsg) ∧
     minimage_difference_vector convW agW1 ⟨[⟨0, 0, 0⟩], none⟩ =
       Except.error (PyErr.valueError presenceMsg)) ∧
    (∃ ds, minimage_distance convW agW1 agW3 = Except.ok ds) ∧
    (∃ vs, minimage_difference_vector convW agW1 agW3 = Except.ok vs) :=
  ⟨(box_compat_check convW agW1 ⟨[⟨0, 0, 0⟩], none⟩ rfl).1 (by decide),
   (box_compat_check convW agW1 agW3 rfl).2.2
     (Or.inr ⟨boxW, boxW7, rfl, rfl, by
        simp only [allclose, boxW, boxW7, boxList, List.zip_cons_cons,
          List.zip_nil_right, List.all_cons, List.all_nil, Bool.and_true,
          Bool.and_eq_true, decide_eq_true_eq]
        refine ⟨?_, ?_, ?_, ?_, ?_, ?_⟩ <;>
          rw [rabs_of_nonpos (by norm_num), rabs_of_nonneg (by norm_num)] <;>
            norm_num⟩)⟩

/-! ### C5 -/

/-- C5: `extract` returns a mapping with exactly the ten keys, in order:
atom count, three box edge lengths, three box angles, frame count, total
time, frame spacing; and on a universe without a regular box all six
box-related values are the zero sentinel (and `extract`, being total, does
not raise). -/
theorem extract_ten_keys_boxless_zero (u : Universe) :
    (extract u).map Prod.fst =
      ["n_atoms", "Lx", "Ly", "Lz", "alpha", "beta", "gamma", "n_frames",
       "totaltime", "dt"] ∧
    (u.dimensions = none →
      lookupD (extract u) "Lx" = 0 ∧ lookupD (extract u) "Ly" = 0 ∧
      lookupD (extract u) "Lz" = 0 ∧ lookupD (extract u) "alpha" = 0 ∧
      lookupD (extract u) "beta" = 0 ∧ lookupD (extract u) "gamma" = 0) := by
  constructor
  · rfl
  · intro hd
    simp [extract, lookupD, hd, List.lookup]

/-- Witness for C5 on the concrete box-less universe. -/
theorem extract_ten_keys_boxless_zero_witness :
    (extract uW).map Prod.fst =
      ["n_atoms", "Lx", "Ly", "Lz", "alpha", "beta", "gamma", "n_frames",
       "totaltime", "dt"] ∧
    (lookupD (extract uW) "Lx" = 0 ∧ lookupD (extract uW) "Ly" = 0 ∧
     lookupD (extract uW) "Lz" = 0 ∧ lookupD (extract uW) "alpha" = 0 ∧
     lookupD (extract uW) "beta" = 0 ∧ lookupD (extract uW) "gamma" = 0) :=
  ⟨(extract_ten_keys_boxless_zero uW).1, (extract_ten_keys_boxless_zero uW).2 rfl⟩

/-! ### C6 -/

/-- C6: when the labels list length differs from the universe count,
`summary` raises the configuration `ValueError` and produces no table (so
nothing is extracted or printed). -/
theorem summary_length_mismatch (us : List Universe) (ls : List (Option String))
    (h : ls.length ≠ us.length) :
    summary us (some ls) = Except.error (PyErr.valueError labelsMsg) := by
  rw [summary_some_eq, if_pos h]

/-- Witness for C6: one label, zero universes. -/
theorem summary_length_mismatch_witness :
    summary [] (some [some "A"]) = Except.error (PyErr.valueError labelsMsg) :=
  summary_length_mismatch [] [some "A"] (by decide)

/-! ### C7 -/

/-- C7: `summary` dereferences `labels` in `len(labels)` before the
`labels is None` check, so calling it with `labels` unset raises
`TypeError`, and the branch substituting per-universe absent labels is
unreachable: every successful call went through the labelled branch, whose
column layout starts with the `simulation` column. -/
theorem summary_labels_none_defect :
    (∀ us : List Universe, summary us none = Except.error PyErr.typeError) ∧
    (∀ (us : List Universe) (labs : Option (List (Option String))) (t : Table),
      summary us labs = Except.ok t →
      t.field_names = "simulation" :: data_column_names) := by
  constructor
  · intro us
    rfl
  · intro us labs t ht
    cases labs with
    | none =>
      rw [show summary us none = Except.error PyErr.typeError from rfl] at ht
      exact absurd ht (by simp)
    | some ls =>
      rw [summary_some_eq] at ht
      by_cases hl : ls.length = us.length
      · rw [if_neg (not_not_intro hl)] at ht
        cases hrows : add_rows ("simulation" :: data_column_names) (us.zip ls) with
        | error e =>
          rw [hrows, bind_error_eq] at ht
          exact absurd ht (by simp)
        | ok rows =>
          rw [hrows, bind_ok_eq, Except.ok.injEq] at ht
          rw [← ht]
      · rw [if_pos hl] at ht
        exact absurd ht (by simp)

/-- Witness for C7: `labels=None` raises, and a successful call (empty
lists) produced the labelled column layout. -/
theorem summary_labels_none_defect_witness :
    summary ([] : List Universe) none = Except.error PyErr.typeError ∧
    tableW.field_names = "simulation" :: data_column_names :=
  ⟨summary_labels_none_defect.1 [],
   summary_labels_none_defect.2 [] (some []) tableW rfl⟩

/-! ### C8 -/

/-- Counterexample for C8: a labels list mixing a string and an absent
entry is rejected by the program — the absent entry yields a label-less
10-cell row against the 11-name labelled layout, on which prettytable's
`add_row` raises `ValueError` — so such a call does not succeed and
`summary` raises on more than the length mismatch. -/
theorem summary_mixed_labels_counterexample :
    summary [uW, uB] (some [some "A", none]) =
      Except.error (PyErr.valueError rowMsg) := rfl

/-- C8 (amended): with labels and universes of equal length and every label
entry a string, `summary` succeeds and its table has one row per universe;
an absent entry among given labels is instead rejected by the `add_row`
row-length validation. -/
theorem summary_all_string_labels_accepted (us : List Universe)
    (ls : List (Option String)) (h : ls.length = us.length)
    (hall : ∀ l ∈ ls, l ≠ none) :
    ∃ t, summary us (some ls) = Except.ok t ∧ t.rows.length = us.length := by
  have hzip : ∀ p ∈ us.zip ls, p.2 ≠ (none : Option String) := by
    rintro ⟨u2, l2⟩ hp
    exact hall l2 (List.of_mem_zip hp).2
  refine ⟨⟨"simulation" :: data_column_names,
    (us.zip ls).map fun p => summaryRow p.1 p.2⟩, ?_, ?_⟩
  · rw [summary_some_eq, if_neg (not_not_intro h), add_rows_all_some _ hzip,
      bind_ok_eq]
  · simp [List.length_zip, h]

/-- Witness for C8 with an all-string labels list. -/
theorem summary_all_string_labels_accepted_witness :
    ∃ t, summary [uW, uB] (some [some "A", some "B"]) = Except.ok t ∧
      t.rows.length = [uW, uB].length :=
  summary_all_string_labels_accepted [uW, uB] [some "A", some "B"] rfl
    (by decide)

/-! ### C9 -/

/-- The loop body of `summary` produces exactly the row the spec
prescribes. -/
theorem summaryRow_eq_specRow (u : Universe) (label : Option String) :
    summaryRow u label = specRow u label := by
  rcases u with ⟨n, dims, ⟨nf, tot, del⟩⟩
  cases dims <;> cases label <;> rfl

/-- C9: every accepted `summary` invocation renders, for each universe, a
row whose totaltime entry is the extracted total time divided by 1000 (ps
to ns), in the fixed column order: label when present, atom count, three
edge lengths, three angles, frame count, total time in ns, frame
spacing. -/
theorem summary_row_contents (us : List Universe) (ls : List (Option String))
    (t : Table) (hok : summary us (some ls) = Except.ok t) (i : Nat)
    (hi : i < us.length) :
    t.field_names = "simulation" :: data_column_names ∧
    t.rows.getD i [] =
      specRow (us.getD i defaultUniverse) (ls.getD i none) := by
  rw [summary_some_eq] at hok
  by_cases hl : ls.length = us.length
  · rw [if_neg (not_not_intro hl)] at hok
    cases hrows : add_rows ("simulation" :: data_column_names) (us.zip ls) with
    | error e =>
      rw [hrows, bind_error_eq] at hok
      exact absurd hok (by simp)
    | ok rows =>
      rw [hrows, bind_ok_eq, Except.ok.injEq] at hok
      refine ⟨by rw [← hok], ?_⟩
      rw [← hok]
      show rows.getD i [] = _
      rw [add_rows_ok _ _ _ hrows]
      have hzi : i < (us.zip ls).length := by
        simp only [List.length_zip]
        omega
      rw [List.getD_eq_getElem _ _ (by simpa using hzi), List.getElem_map,
        List.getElem_zip, List.getD_eq_getElem _ _ hi,
        List.getD_eq_getElem _ _ (show i < ls.length by omega)]
      exact summaryRow_eq_specRow _ _
  · rw [if_pos hl] at hok
    exact absurd hok (by simp)

/-- Witness for C9: second row of an accepted two-universe, two-label
call. -/
theorem summary_row_contents_witness :
    tableC9.field_names = "simulation" :: data_column_names ∧
    tableC9.rows.getD 1 [] =
      specRow ([uW, uB].getD 1 defaultUniverse)
        ([some "A", some "B"].getD 1 none) :=
  summary_row_contents [uW, uB] [some "A", some "B"] tableC9 rfl 1 (by decide)

/-! ### C10 -/

/-- The heap-level loop body leaves the universes component untouched: it
writes only to the dictionary heap. -/
theorem summaryRowS_universes (h : Heap) (r : Nat) (label : Option String) :
    ((summaryRowS h r label).1).universes = h.universes := rfl

/-- The heap-level `summary` loop leaves the universes component
untouched. -/
theorem add_rowsS_universes (cols : List String)
    (l : List (Nat × Option String)) (h : Heap)
    (out : Heap × List (List Cell))
    (hok : add_rowsS cols h l = Except.ok out) :
    out.1.universes = h.universes := by
  induction l generalizing h out with
  | nil =>
    rw [show add_rowsS cols h [] = Except.ok (h, []) from rfl,
      Except.ok.injEq] at hok
    rw [← hok]
  | cons p rest ih =>
    unfold add_rowsS at hok
    by_cases hlen : ((summaryRowS h p.1 p.2).2).length = cols.length
    · rw [if_neg (not_not_intro hlen)] at hok
      cases hrec : add_rowsS cols (summaryRowS h p.1 p.2).1 rest with
      | error e =>
        rw [hrec, bind_error_eq] at hok
        exact absurd hok (by simp)
      | ok out2 =>
        rw [hrec, bind_ok_eq, Except.ok.injEq] at hok
        rw [← hok]
        exact (ih _ _ hrec).trans (summaryRowS_universes h p.1 p.2)
    · rw [if_pos hlen] at hok
      exact absurd hok (by simp)

/-- Evaluation of `summaryS` on a present labels list, with the control flow
reduced. -/
theorem summaryS_some_eq (hp : Heap) (refs : List Nat)
    (ls : List (Option String)) :
    summaryS hp refs (some ls) =
      if ls.length ≠ refs.length then Except.error (PyErr.valueError labelsMsg)
      else add_rowsS ("simulation" :: data_column_names) hp (refs.zip ls) >>=
        fun out => Except.ok (out.1,
          { field_names := "simulation" :: data_column_names
            rows := out.2 }) := rfl

/-- C10: a `summary` call never mutates the universes — its in-place
division touches only the dictionaries freshly allocated by `extract`
during the call — so extracting from any universe after the call returns
exactly what extracting before the call returned (and `extract` and the
distance operations, being functions of their inputs, are
deterministic). -/
theorem summary_no_universe_mutation (hp : Heap) (refs : List Nat)
    (labs : Option (List (Option String))) (hp2 : Heap) (t : Table)
    (hok : summaryS hp refs labs = Except.ok (hp2, t)) :
    hp2.universes = hp.universes ∧
    ∀ r, extract (heapU hp2 r) = extract (heapU hp r) := by
  have huniv : hp2.universes = hp.universes := by
    cases labs with
    | none =>
      rw [show summaryS hp refs none = Except.error PyErr.typeError from rfl]
        at hok
      exact absurd hok (by simp)
    | some ls =>
      rw [summaryS_some_eq] at hok
      by_cases hl : ls.length = refs.length
      · rw [if_neg (not_not_intro hl)] at hok
        cases hrec : add_rowsS ("simulation" :: data_column_names) hp
            (refs.zip ls) with
        | error e =>
          rw [hrec, bind_error_eq] at hok
          exact absurd hok (by simp)
        | ok out =>
          rw [hrec, bind_ok_eq, Except.ok.injEq, Prod.mk.injEq] at hok
          rw [← hok.1]
          exact add_rowsS_universes _ _ _ _ hrec
      · rw [if_pos hl] at hok
        exact absurd hok (by simp)
  refine ⟨huniv, fun r => ?_⟩
  simp only [heapU, huniv]

/-- Witness for C10: a one-universe `summary` call, after which the stored
universe and a re-extraction are unchanged. -/
theorem summary_no_universe_mutation_witness :
    heap1.universes = heap0.universes ∧
    extract (heapU heap1 0) = extract (heapU heap0 0) :=
  ⟨(summary_no_universe_mutation heap0 [0] (some [some "lbl"]) heap1 table1
      rfl).1,
   (summary_no_universe_mutation heap0 [0] (some [some "lbl"]) heap1 table1
      rfl).2 0⟩

end MDGeom

